import Mathlib

/-!
Verification of the T-Pulse sentiment feed aggregator.

The repository's core is the WebSocket message handling shared by the US map
component (UsaMap.tsx, with an earlier variant of the same handler) and the
dashboard component (DashboardLayout.tsx).  This file embeds those handlers:
JavaScript numbers are modelled as rationals extended with NaN and the two
infinities (the typeof check of the source accepts all of them), records and
wire messages carry optional JS values, and each message handler becomes a
pure function from state and parsed frame to state plus the number of
notify-callback invocations it performs.
-/

namespace TPulse

/-- Model of a JavaScript number: a finite double (as a rational) or one of
the non-finite values NaN, Infinity, -Infinity.  The handlers only guard
fields with a typeof check, which all four constructors pass. -/
inductive JsNum where
  | fin (q : ℚ)
  | nan
  | inf
  | ninf
deriving DecidableEq

/-- Model of a JavaScript value occurring in a record field. -/
inductive JsVal where
  | num (n : JsNum)
  | str (s : String)
  | bool (b : Bool)
  | null
deriving DecidableEq

/-- The guard pattern of the handlers, e.g. the source line
lat = typeof t.lat === 'number' ? t.lat : null — it yields the numeric value
when the field holds a JS number and null (none) otherwise. -/
def numOrNull : Option JsVal → Option JsNum
  | some (.num n) => some n
  | _ => none

/-- A wire record (tweet-like event) as the handlers see it after
JSON.parse: every field may be absent or hold an arbitrary JS value. -/
structure Tweet where
  lat : Option JsVal
  lon : Option JsVal
  sentiment_score : Option JsVal
  timestamp : Option JsVal
  text : Option JsVal
deriving DecidableEq

/-- Result of the Array.isArray check on the data field of a message. -/
inductive JsData where
  | notArray
  | arr (elems : List Tweet)
deriving DecidableEq

/-- A parsed wire envelope: a type field and a data field. -/
structure Msg where
  type : Option JsVal
  data : JsData
deriving DecidableEq

/-- A socket frame after the JSON.parse attempt of the handler: either the
parse threw (unparseable) or it produced a message value. -/
inductive Frame where
  | unparseable
  | parsed (msg : Msg)
deriving DecidableEq

/-- A validated point of the map's rolling buffer
(pointsRef: lat, lon, sentiment, ts). -/
structure GeoPoint where
  lat : JsNum
  lon : JsNum
  sentiment : JsNum
  ts : JsNum
deriving DecidableEq

namespace JsNum

/-- JavaScript comparison x >= c of a number against a finite cutoff:
NaN compares false, Infinity is above every finite value. -/
def geQ : JsNum → ℚ → Bool
  | .fin q, c => decide (c ≤ q)
  | .nan, _ => false
  | .inf, _ => true
  | .ninf, _ => false

/-- JavaScript comparison x > c against a finite bound. -/
def gtQ : JsNum → ℚ → Bool
  | .fin q, c => decide (c < q)
  | .nan, _ => false
  | .inf, _ => true
  | .ninf, _ => false

/-- JavaScript comparison x <= c against a finite bound. -/
def leQ : JsNum → ℚ → Bool
  | .fin q, c => decide (q ≤ c)
  | .nan, _ => false
  | .inf, _ => false
  | .ninf, _ => true

/-- JavaScript subtraction now - x for a finite now. -/
def subFrom (now : ℚ) : JsNum → JsNum
  | .fin q => .fin (now - q)
  | .nan => .nan
  | .inf => .ninf
  | .ninf => .inf

/-- Number.isFinite. -/
def isFinite : JsNum → Bool
  | .fin _ => true
  | _ => false

/-- JavaScript floating-point addition lifted to the model. -/
def add : JsNum → JsNum → JsNum
  | .nan, _ => .nan
  | _, .nan => .nan
  | .fin a, .fin b => .fin (a + b)
  | .inf, .ninf => .nan
  | .ninf, .inf => .nan
  | .inf, _ => .inf
  | _, .inf => .inf
  | .ninf, _ => .ninf
  | _, .ninf => .ninf

/-- JavaScript division of the running sum by the record count; the source
only divides under a count > 0 guard, where a finite sum gives the exact
rational mean and a non-finite sum propagates. -/
def divNat : JsNum → Nat → JsNum
  | .fin q, n => .fin (q / n)
  | .nan, _ => .nan
  | .inf, _ => .inf
  | .ninf, _ => .ninf

end JsNum

/-- Validation of one record by the map handlers: lat, lon and
sentiment_score must all be JS numbers. -/
def validGeo (t : Tweet) : Bool :=
  (numOrNull t.lat).isSome && (numOrNull t.lon).isSome &&
    (numOrNull t.sentiment_score).isSome

/-- One iteration of the batch loop in the current map handler
(UsaMap.tsx): validate the three numeric fields and build a GeoPoint
stamped with the handler's wall-clock time now; invalid records yield
none and are skipped. -/
def mkPoint (now : ℚ) (t : Tweet) : Option GeoPoint :=
  match numOrNull t.lat, numOrNull t.lon, numOrNull t.sentiment_score with
  | some la, some lo, some s => some ⟨la, lo, s, .fin now⟩
  | _, _, _ => none

/-- One iteration of the batch loop in the earlier map handler
(src/unnamed/part_000): same validation, but the stored ts uses the
record's own timestamp field when it is a JS number, falling back to
now. -/
def mkPointOld (now : ℚ) (t : Tweet) : Option GeoPoint :=
  match numOrNull t.lat, numOrNull t.lon, numOrNull t.sentiment_score with
  | some la, some lo, some s =>
      some ⟨la, lo, s, (numOrNull t.timestamp).getD (.fin now)⟩
  | _, _, _ => none

/-- The prune step at the end of both map handlers: keep the points with
p.ts >= cutoff where cutoff = now - 60. -/
def prunePoints (now : ℚ) (pts : List GeoPoint) : List GeoPoint :=
  pts.filter (fun p => p.ts.geQ (now - 60))

/-- The current map message handler (ws.onmessage of UsaMap.tsx): on a
message with type tweets and array data, append one GeoPoint per valid
record stamped with now, prune the 60-second window and call drawHeatmap
once; any other frame leaves the buffer untouched.  The second component
counts the drawHeatmap invocations of the call. -/
def usaMapIngest (pts : List GeoPoint) (frame : Frame) (now : ℚ) :
    List GeoPoint × Nat :=
  match frame with
  | .unparseable => (pts, 0)
  | .parsed m =>
    match m.type, m.data with
    | some (.str "tweets"), .arr data =>
        (prunePoints now (pts ++ data.filterMap (mkPoint now)), 1)
    | _, _ => (pts, 0)

/-- The earlier map message handler (ws.onmessage of
src/unnamed/part_000): identical except for the timestamp source of the
appended points. -/
def usaMapIngestOld (pts : List GeoPoint) (frame : Frame) (now : ℚ) :
    List GeoPoint × Nat :=
  match frame with
  | .unparseable => (pts, 0)
  | .parsed m =>
    match m.type, m.data with
    | some (.str "tweets"), .arr data =>
        (prunePoints now (pts ++ data.filterMap (mkPointOld now)), 1)
    | _, _ => (pts, 0)

/-- JavaScript truthiness, used by the if (tweet.text) guard of the
dashboard: absent fields, null, false, the empty string, 0 and NaN are
falsy. -/
def truthy : Option JsVal → Bool
  | none => false
  | some .null => false
  | some (.bool b) => b
  | some (.str s) => !(s == "")
  | some (.num (.fin q)) => !(q == 0)
  | some (.num .nan) => false
  | some (.num .inf) => true
  | some (.num .ninf) => true

/-- An entry of the dashboard's live comments feed. -/
structure Comment where
  text : JsVal
  sentiment : JsNum
  timestamp : ℚ
deriving DecidableEq

/-- JavaScript array.slice(-n): the last n elements, or the whole list when
it is shorter. -/
def sliceLast (n : Nat) (l : List α) : List α :=
  l.drop (l.length - n)

/-- The mutable state of the dashboard component: the running sentiment
sum and count (sentimentSumRef, countRef), the published satisfaction
score and the live comments feed. -/
structure DashState where
  sentimentSum : JsNum
  count : Nat
  satisfactionScore : JsNum
  liveComments : List Comment
deriving DecidableEq

/-- The dashboard state at mount: sum 0, count 0, score 0, no comments. -/
def DashState.init : DashState := ⟨.fin 0, 0, .fin 0, []⟩

/-- One iteration of the dashboard batch loop: when sentiment_score is a JS
number, fold it into the running sum and count, and when the text field is
truthy additionally append a comment (timestamped with the handler's
Date.now()) to the feed, keeping only the last 50 entries. -/
def dashStep (nowMs : ℚ) (st : DashState) (t : Tweet) : DashState :=
  match numOrNull t.sentiment_score with
  | some s =>
      match t.text with
      | some v =>
          if truthy (some v) then
            ⟨st.sentimentSum.add s, st.count + 1,
              st.satisfactionScore,
              sliceLast 50 (st.liveComments ++ [⟨v, s, nowMs⟩])⟩
          else
            ⟨st.sentimentSum.add s, st.count + 1,
              st.satisfactionScore, st.liveComments⟩
      | none =>
          ⟨st.sentimentSum.add s, st.count + 1,
            st.satisfactionScore, st.liveComments⟩
  | none => st

/-- The dashboard message handler (ws.onmessage of DashboardLayout.tsx):
on a message with type tweets and array data, run the batch loop, then, if
the count is positive, publish sum / count through setSatisfactionScore;
any other frame leaves the state untouched.  The second component counts
the setSatisfactionScore invocations of the call. -/
def dashIngest (st : DashState) (frame : Frame) (nowMs : ℚ) :
    DashState × Nat :=
  match frame with
  | .unparseable => (st, 0)
  | .parsed m =>
    match m.type, m.data with
    | some (.str "tweets"), .arr data =>
        let st1 := data.foldl (dashStep nowMs) st
        if st1.count > 0 then
          (⟨st1.sentimentSum, st1.count,
            st1.sentimentSum.divNat st1.count, st1.liveComments⟩, 1)
        else (st1, 0)
    | _, _ => (st, 0)

/-- Running the dashboard handler over a sequence of frames, each paired
with its arrival time in milliseconds. -/
def dashRun (frames : List (Frame × ℚ)) (st : DashState) : DashState :=
  frames.foldl (fun s fr => (dashIngest s fr.1 fr.2).1) st

/-- The dashboard socket close handler: logs, then schedules exactly one
reconnect timer via setTimeout(connect, 3000).  Modelled on the queue of
pending reconnect delays (milliseconds) of the host event loop. -/
def dashOnClose (pending : List ℚ) : List ℚ := pending ++ [3000]

/-- The map socket close handler (ws.onclose of UsaMap.tsx): it only logs
and schedules nothing. -/
def usaMapOnClose (pending : List ℚ) : List ℚ := pending

/-- The numeric sentiment scores a frame contributes to the running
aggregate, in order: the batch (specification-side) view of the data that
the incremental code folds in. -/
def frameScores : Frame → List JsNum
  | .unparseable => []
  | .parsed m =>
    match m.type, m.data with
    | some (.str "tweets"), .arr data =>
        data.filterMap (fun t => numOrNull t.sentiment_score)
    | _, _ => []

/-- All numeric sentiment scores of a frame sequence, in arrival order. -/
def framesScores (frames : List (Frame × ℚ)) : List JsNum :=
  (frames.map (fun fr => frameScores fr.1)).flatten

/-- The comment a record contributes to the live feed, if any: it needs a
numeric sentiment_score and a truthy text. -/
def tweetComment (nowMs : ℚ) (t : Tweet) : Option Comment :=
  match numOrNull t.sentiment_score, t.text with
  | some s, some v => if truthy (some v) then some ⟨v, s, nowMs⟩ else none
  | _, _ => none

/-- The acceptance guard of both message handlers: the frame parsed, its
type field is the string tweets and its data field is an array. -/
def Frame.accepted : Frame → Bool
  | .unparseable => false
  | .parsed m =>
      (m.type == some (.str "tweets")) &&
        (match m.data with | .arr _ => true | .notArray => false)

/-!  Helper lemmas. -/

theorem mkPoint_ts {now : ℚ} {t : Tweet} {p : GeoPoint}
    (h : mkPoint now t = some p) : p.ts = .fin now := by
  unfold mkPoint at h
  split at h
  · cases h
    rfl
  · cases h

theorem mkPoint_isSome (now : ℚ) (t : Tweet) :
    (mkPoint now t).isSome = validGeo t := by
  unfold mkPoint validGeo
  rcases t with ⟨la, lo, s, ts, tx⟩
  cases hla : numOrNull la <;> cases hlo : numOrNull lo <;>
    cases hs : numOrNull s <;> simp [hla, hlo, hs]

theorem length_filterMap_count {α β : Type} (f : α → Option β) (l : List α) :
    (l.filterMap f).length = l.countP (fun a => (f a).isSome) := by
  induction l with
  | nil => rfl
  | cons a l ih =>
      cases h : f a <;>
        simp [List.filterMap_cons, List.countP_cons, h, ih]

/-!  Claim theorems. -/

/-- C1: for every point buffer and every time now, after the prune step
run at the end of ingest no point whose age now - ts exceeds 60 seconds
remains, every point whose age is at most 60 seconds is retained, relative
order is preserved (the pruned buffer is a sublist of the original), and
the accepted-message handler indeed ends with exactly this prune of the
appended buffer. -/
theorem prune_window (now : ℚ) (pts : List GeoPoint) (data : List Tweet) :
    (∀ p ∈ prunePoints now pts,
        ¬ (JsNum.gtQ (JsNum.subFrom now p.ts) 60 = true)) ∧
    (∀ p ∈ pts, JsNum.leQ (JsNum.subFrom now p.ts) 60 = true →
        p ∈ prunePoints now pts) ∧
    List.Sublist (prunePoints now pts) pts ∧
    (usaMapIngest pts (.parsed ⟨some (.str "tweets"), .arr data⟩) now).1 =
      prunePoints now (pts ++ data.filterMap (mkPoint now)) := by
  refine ⟨?_, ?_, List.filter_sublist _, rfl⟩
  · intro p hp
    rw [prunePoints, List.mem_filter] at hp
    obtain ⟨-, hge⟩ := hp
    cases hts : p.ts <;>
      simp [hts, JsNum.geQ, JsNum.subFrom, JsNum.gtQ] at hge ⊢
    linarith
  · intro p hp hle
    rw [prunePoints, List.mem_filter]
    refine ⟨hp, ?_⟩
    cases hts : p.ts <;>
      simp [hts, JsNum.geQ, JsNum.subFrom, JsNum.leQ] at hle ⊢
    linarith

/-- C1 witness: a point of age 30 seconds is retained by the prune at time
100. -/
theorem prune_window_witness :
    (⟨.fin 1, .fin 2, .fin 0, .fin 70⟩ : GeoPoint) ∈
      prunePoints 100 [⟨.fin 1, .fin 2, .fin 0, .fin 70⟩] :=
  (prune_window 100 [⟨.fin 1, .fin 2, .fin 0, .fin 70⟩] []).2.1 _
    (List.mem_singleton.mpr rfl)
    (by norm_num [JsNum.subFrom, JsNum.leQ])

theorem usaMapIngest_not_accepted {frame : Frame}
    (h : Frame.accepted frame = false) (pts : List GeoPoint) (now : ℚ) :
    usaMapIngest pts frame now = (pts, 0) := by
  cases frame with
  | unparseable => rfl
  | parsed m =>
    obtain ⟨ty, da⟩ := m
    simp only [usaMapIngest]
    split
    · simp [Frame.accepted] at h
    all_goals rfl

theorem dashIngest_not_accepted {frame : Frame}
    (h : Frame.accepted frame = false) (st : DashState) (nowMs : ℚ) :
    dashIngest st frame nowMs = (st, 0) := by
  cases frame with
  | unparseable => rfl
  | parsed m =>
    obtain ⟨ty, da⟩ := m
    simp only [dashIngest]
    split
    · simp [Frame.accepted] at h
    all_goals rfl

theorem frameScores_not_accepted {frame : Frame}
    (h : Frame.accepted frame = false) : frameScores frame = [] := by
  cases frame with
  | unparseable => rfl
  | parsed m =>
    obtain ⟨ty, da⟩ := m
    simp only [frameScores]
    split
    · simp [Frame.accepted] at h
    all_goals rfl

theorem accepted_shape {frame : Frame} (h : Frame.accepted frame = true) :
    ∃ data, frame = .parsed ⟨some (.str "tweets"), .arr data⟩ := by
  cases frame with
  | unparseable => cases h
  | parsed m =>
      obtain ⟨ty, da⟩ := m
      simp only [Frame.accepted, Bool.and_eq_true, beq_iff_eq] at h
      obtain ⟨hty, hda⟩ := h
      subst hty
      rcases da with _ | data
      · cases hda
      · exact ⟨data, rfl⟩

/-- C4: a frame that is unparseable, or whose message type is not tweets
or whose data is not an array, leaves the map's point buffer and the
dashboard's running sum, count, satisfaction score and comment feed
unchanged, and triggers no callback. -/
theorem rejected_frame_no_change (frame : Frame)
    (h : Frame.accepted frame = false)
    (pts : List GeoPoint) (st : DashState) (now nowMs : ℚ) :
    usaMapIngest pts frame now = (pts, 0) ∧
      dashIngest st frame nowMs = (st, 0) :=
  ⟨usaMapIngest_not_accepted h pts now, dashIngest_not_accepted h st nowMs⟩

/-- C4 witness: an unparseable frame leaves the initial states of both
components unchanged with no callback. -/
theorem rejected_frame_no_change_witness :
    usaMapIngest [] .unparseable 0 = ([], 0) ∧
      dashIngest DashState.init .unparseable 0 = (DashState.init, 0) :=
  rejected_frame_no_change .unparseable rfl [] DashState.init 0 0

theorem numOrNull_eq_some {x : Option JsVal} {n : JsNum}
    (h : numOrNull x = some n) : x = some (.num n) := by
  rcases x with _ | v
  · exact absurd h (by simp [numOrNull])
  · rcases v with m | s | b | _
    · simp only [numOrNull, Option.some.injEq] at h
      rw [h]
    · exact absurd h (by simp [numOrNull])
    · exact absurd h (by simp [numOrNull])
    · exact absurd h (by simp [numOrNull])

theorem mkPoint_fields {now : ℚ} {t : Tweet} {p : GeoPoint}
    (h : mkPoint now t = some p) :
    t.lat = some (.num p.lat) ∧ t.lon = some (.num p.lon) ∧
      t.sentiment_score = some (.num p.sentiment) := by
  unfold mkPoint at h
  split at h
  · next la lo s hla hlo hs =>
      cases h
      exact ⟨numOrNull_eq_some hla, numOrNull_eq_some hlo,
        numOrNull_eq_some hs⟩
  · cases h

theorem fresh_points_survive (now : ℚ) (data : List Tweet) :
    ∀ p ∈ data.filterMap (mkPoint now), p.ts.geQ (now - 60) = true := by
  intro p hp
  rw [List.mem_filterMap] at hp
  obtain ⟨t, -, hmk⟩ := hp
  rw [mkPoint_ts hmk]
  simp only [JsNum.geQ, decide_eq_true_eq]
  linarith

theorem prune_append_fresh (now : ℚ) (pts : List GeoPoint)
    (data : List Tweet) :
    prunePoints now (pts ++ data.filterMap (mkPoint now)) =
      prunePoints now pts ++ data.filterMap (mkPoint now) := by
  rw [prunePoints, List.filter_append,
    List.filter_eq_self.mpr (fresh_points_survive now data)]
  rfl

/-- C5: an accepted batch appends exactly one GeoPoint per valid record
(in batch order, after the pruned previous buffer) and none per invalid
record; with 3 valid records among 5 exactly 3 points are appended, and
the handler is a total function, so no error is raised. -/
theorem batch_three_valid (st : List GeoPoint) (now : ℚ) (data : List Tweet)
    (h3 : data.countP validGeo = 3) (h5 : data.length = 5) :
    (usaMapIngest st (.parsed ⟨some (.str "tweets"), .arr data⟩) now).1 =
      prunePoints now st ++ data.filterMap (mkPoint now) ∧
    (data.filterMap (mkPoint now)).length = 3 := by
  refine ⟨prune_append_fresh now st data, ?_⟩
  rw [length_filterMap_count]
  calc data.countP (fun t => (mkPoint now t).isSome)
      = data.countP validGeo := by
        apply List.countP_congr
        intro t _
        rw [mkPoint_isSome]
    _ = 3 := h3

/-- The concrete 3-valid-plus-2-invalid batch of the C5 scenario. -/
def batchW : List Tweet :=
  [⟨some (.num (.fin 1)), some (.num (.fin 2)), some (.num (.fin 0)), none, none⟩,
   ⟨none, none, none, none, none⟩,
   ⟨some (.num (.fin 3)), some (.num (.fin 4)), some (.num (.fin 1)), none, none⟩,
   ⟨some (.str "oops"), some (.num (.fin 0)), some (.num (.fin 0)), none, none⟩,
   ⟨some (.num (.fin 5)), some (.num (.fin 6)), some (.num (.fin (-1))), none, none⟩]

/-- C5 witness: the concrete 5-record batch appends exactly 3 points. -/
theorem batch_three_valid_witness :
    (usaMapIngest [] (.parsed ⟨some (.str "tweets"), .arr batchW⟩) 100).1 =
      prunePoints 100 [] ++ batchW.filterMap (mkPoint 100) ∧
    (batchW.filterMap (mkPoint 100)).length = 3 :=
  batch_three_valid [] 100 batchW rfl rfl

/-- C3 counterexample: a record whose lat field holds the JS number
Infinity (reachable from the wire, e.g. the JSON literal 1e999) passes the
typeof validation, so the rolling buffer holds a GeoPoint whose lat is not
finite, refuting the finiteness invariant as stated. -/
theorem buffer_nonfinite_lat :
    (usaMapIngest []
        (.parsed ⟨some (.str "tweets"),
          .arr [⟨some (.num .inf), some (.num (.fin 0)),
                some (.num (.fin 0)), none, none⟩]⟩) 100).1 =
      [⟨.inf, .fin 0, .fin 0, .fin 100⟩] ∧
    JsNum.isFinite .inf = false := by
  constructor
  · show prunePoints 100 _ = _
    norm_num [prunePoints, mkPoint, numOrNull, List.filterMap, JsNum.geQ,
      List.filter]
  · rfl

/-- C3 amended: validation only checks that lat, lon and sentiment_score
are of JS number type (finite or not), so every stored coordinate is
exactly such a number-typed field of some incoming record; a record
failing the validation is dropped silently and the rest of the batch is
unaffected. -/
theorem validation_drops_invalid (st : List GeoPoint) (now : ℚ)
    (pre post : List Tweet) (bad : Tweet) (hbad : validGeo bad = false) :
    usaMapIngest st
        (.parsed ⟨some (.str "tweets"), .arr (pre ++ bad :: post)⟩) now =
      usaMapIngest st
        (.parsed ⟨some (.str "tweets"), .arr (pre ++ post)⟩) now ∧
    ∀ p ∈ (usaMapIngest st
        (.parsed ⟨some (.str "tweets"), .arr (pre ++ bad :: post)⟩) now).1,
      p ∈ st ∨ ∃ t ∈ pre ++ bad :: post,
        t.lat = some (.num p.lat) ∧ t.lon = some (.num p.lon) ∧
          t.sentiment_score = some (.num p.sentiment) := by
  have hnone : mkPoint now bad = none := by
    have := mkPoint_isSome now bad
    rw [hbad] at this
    exact Option.not_isSome_iff_eq_none.mp (by rw [this]; exact Bool.false_ne_true)
  constructor
  · show (prunePoints now _, 1) = (prunePoints now _, 1)
    rw [List.filterMap_append, List.filterMap_cons, hnone,
      List.filterMap_append]
  · intro p hp
    have hp2 : p ∈ st ++ (pre ++ bad :: post).filterMap (mkPoint now) :=
      List.Sublist.mem hp (List.filter_sublist _)
    rcases List.mem_append.mp hp2 with hin | hin
    · exact Or.inl hin
    · right
      obtain ⟨t, ht, hmk⟩ := List.mem_filterMap.mp hin
      exact ⟨t, ht, mkPoint_fields hmk⟩

/-- C3 amended witness: dropping the all-empty invalid record leaves the
result of the batch unchanged. -/
theorem validation_drops_invalid_witness :
    usaMapIngest []
        (.parsed ⟨some (.str "tweets"),
          .arr ([] ++ (⟨none, none, none, none, none⟩ : Tweet) ::
            [⟨some (.num (.fin 1)), some (.num (.fin 2)),
              some (.num (.fin 0)), none, none⟩])⟩) 0 =
      usaMapIngest []
        (.parsed ⟨some (.str "tweets"),
          .arr ([] ++ [⟨some (.num (.fin 1)), some (.num (.fin 2)),
            some (.num (.fin 0)), none, none⟩])⟩) 0 :=
  (validation_drops_invalid [] 0 []
    [⟨some (.num (.fin 1)), some (.num (.fin 2)), some (.num (.fin 0)),
      none, none⟩]
    ⟨none, none, none, none, none⟩ rfl).1

theorem mkPoint_eq_mkPointOld {now : ℚ} {t : Tweet}
    (h : numOrNull t.timestamp = none) :
    mkPoint now t = mkPointOld now t := by
  cases hla : numOrNull t.lat <;> cases hlo : numOrNull t.lon <;>
    cases hs : numOrNull t.sentiment_score <;>
    simp [mkPoint, mkPointOld, hla, hlo, hs, h]

/-- C9 counterexample: for the record carrying numeric timestamp 5 handled
at time 100, the current variant stamps the point with 100 and keeps it,
while the earlier variant stores the record's timestamp 5 and prunes the
point at once, so the resulting buffers differ. -/
theorem variants_differ :
    (usaMapIngest []
        (.parsed ⟨some (.str "tweets"),
          .arr [⟨some (.num (.fin 0)), some (.num (.fin 0)),
                some (.num (.fin 0)), some (.num (.fin 5)), none⟩]⟩)
        100).1 = [⟨.fin 0, .fin 0, .fin 0, .fin 100⟩] ∧
    (usaMapIngestOld []
        (.parsed ⟨some (.str "tweets"),
          .arr [⟨some (.num (.fin 0)), some (.num (.fin 0)),
                some (.num (.fin 0)), some (.num (.fin 5)), none⟩]⟩)
        100).1 = [] ∧
    (usaMapIngest []
        (.parsed ⟨some (.str "tweets"),
          .arr [⟨some (.num (.fin 0)), some (.num (.fin 0)),
                some (.num (.fin 0)), some (.num (.fin 5)), none⟩]⟩)
        100).1 ≠
      (usaMapIngestOld []
        (.parsed ⟨some (.str "tweets"),
          .arr [⟨some (.num (.fin 0)), some (.num (.fin 0)),
                some (.num (.fin 0)), some (.num (.fin 5)), none⟩]⟩)
        100).1 := by
  have h1 : (usaMapIngest []
      (.parsed ⟨some (.str "tweets"),
        .arr [⟨some (.num (.fin 0)), some (.num (.fin 0)),
              some (.num (.fin 0)), some (.num (.fin 5)), none⟩]⟩)
      100).1 = [⟨.fin 0, .fin 0, .fin 0, .fin 100⟩] := by
    show prunePoints 100 _ = _
    norm_num [prunePoints, mkPoint, numOrNull, List.filterMap, JsNum.geQ,
      List.filter]
  have h2 : (usaMapIngestOld []
      (.parsed ⟨some (.str "tweets"),
        .arr [⟨some (.num (.fin 0)), some (.num (.fin 0)),
              some (.num (.fin 0)), some (.num (.fin 5)), none⟩]⟩)
      100).1 = [] := by
    show prunePoints 100 _ = _
    norm_num [prunePoints, mkPointOld, numOrNull, List.filterMap, JsNum.geQ,
      List.filter]
  refine ⟨h1, h2, ?_⟩
  rw [h1, h2]
  simp

/-- C9 amended: the two map ingest variants agree exactly on batches none
of whose records carries a numeric timestamp field; then both stamp every
valid record with the handler's wall-clock time and produce identical
buffers. -/
theorem variants_agree_without_timestamp (pts : List GeoPoint)
    (frame : Frame) (now : ℚ)
    (h : ∀ m data, frame = .parsed m → m.data = .arr data →
        ∀ t ∈ data, numOrNull t.timestamp = none) :
    usaMapIngest pts frame now = usaMapIngestOld pts frame now := by
  cases frame with
  | unparseable => rfl
  | parsed m =>
    obtain ⟨ty, da⟩ := m
    simp only [usaMapIngest, usaMapIngestOld]
    split
    · next data =>
        have hcongr : data.filterMap (mkPoint now) =
            data.filterMap (mkPointOld now) :=
          List.filterMap_congr (fun t ht =>
            mkPoint_eq_mkPointOld (h _ data rfl rfl t ht))
        rw [hcongr]
    all_goals rfl

/-- C9 amended witness: on a batch whose single record has no timestamp
field, the two variants coincide. -/
theorem variants_agree_without_timestamp_witness :
    usaMapIngest []
        (.parsed ⟨some (.str "tweets"),
          .arr [⟨some (.num (.fin 1)), some (.num (.fin 2)),
                some (.num (.fin 0)), none, none⟩]⟩) 100 =
      usaMapIngestOld []
        (.parsed ⟨some (.str "tweets"),
          .arr [⟨some (.num (.fin 1)), some (.num (.fin 2)),
                some (.num (.fin 0)), none, none⟩]⟩) 100 :=
  variants_agree_without_timestamp [] _ 100 (by
    intro m data hm hd t ht
    cases hm
    cases hd
    simp only [List.mem_singleton] at ht
    rw [ht]
    rfl)

/-- C6 counterexample: the map component's socket close handler only logs,
so a close event there schedules zero reconnect attempts, not exactly
one. -/
theorem usaMap_onclose_no_reconnect :
    (usaMapOnClose []).length = 0 := rfl

/-- C6 amended: the dashboard's close handler schedules exactly one further
reconnect timer with the fixed 3000 ms delay on every close (n successive
closes leave n pending timers), while the map's close handler schedules
none. -/
theorem onclose_schedules (pending : List ℚ) (n : Nat) :
    (dashOnClose pending).length = pending.length + 1 ∧
    dashOnClose pending = pending ++ [3000] ∧
    (dashOnClose^[n] []).length = n ∧
    usaMapOnClose pending = pending := by
  refine ⟨by simp [dashOnClose], rfl, ?_, rfl⟩
  induction n with
  | zero => rfl
  | succ k ih =>
      rw [Function.iterate_succ_apply']
      simp [dashOnClose, ih]

/-- Effect of the dashboard batch loop on the whole state: the numeric
scores are folded into the sum and counted, the published score is
untouched, and the comments evolve by the per-element capped append. -/
theorem dashFold_spec (nowMs : ℚ) (data : List Tweet) :
    ∀ st : DashState,
      data.foldl (dashStep nowMs) st =
        ⟨(data.filterMap (fun t => numOrNull t.sentiment_score)).foldl
            JsNum.add st.sentimentSum,
          st.count +
            (data.filterMap (fun t => numOrNull t.sentiment_score)).length,
          st.satisfactionScore,
          (data.filterMap (tweetComment nowMs)).foldl
            (fun acc c => sliceLast 50 (acc ++ [c])) st.liveComments⟩ := by
  induction data with
  | nil => intro st; simp
  | cons t data ih =>
      intro st
      rw [List.foldl_cons, ih (dashStep nowMs st t)]
      cases hs : numOrNull t.sentiment_score with
      | none =>
          simp [dashStep, tweetComment, hs, List.filterMap_cons]
      | some s =>
          cases htx : t.text with
          | none =>
              simp [dashStep, tweetComment, hs, htx, List.filterMap_cons]
              omega
          | some v =>
              by_cases htr : truthy (some v) = true
              · simp [dashStep, tweetComment, hs, htx, htr,
                  List.filterMap_cons]
                omega
              · rw [Bool.not_eq_true] at htr
                simp [dashStep, tweetComment, hs, htx, htr,
                  List.filterMap_cons]
                omega

/-- Effect of one dashboard message on sum, count and the mean invariant:
scores are appended to the running fold, and whenever the count is
positive afterwards the published score is the running sum divided by the
count. -/
theorem dashIngest_inv (st : DashState) (frame : Frame) (nowMs : ℚ) :
    (dashIngest st frame nowMs).1.count =
      st.count + (frameScores frame).length ∧
    (dashIngest st frame nowMs).1.sentimentSum =
      (frameScores frame).foldl JsNum.add st.sentimentSum ∧
    ((1 ≤ st.count →
        st.satisfactionScore = st.sentimentSum.divNat st.count) →
      1 ≤ (dashIngest st frame nowMs).1.count →
      (dashIngest st frame nowMs).1.satisfactionScore =
        (dashIngest st frame nowMs).1.sentimentSum.divNat
          (dashIngest st frame nowMs).1.count) := by
  by_cases hacc : Frame.accepted frame = true
  · obtain ⟨data, rfl⟩ := accepted_shape hacc
    have hscores : frameScores
        (.parsed ⟨some (.str "tweets"), .arr data⟩) =
        data.filterMap (fun t => numOrNull t.sentiment_score) := rfl
    simp only [dashIngest, dashFold_spec nowMs data st, hscores]
    split
    · next hpos =>
        refine ⟨rfl, rfl, fun _ _ => rfl⟩
    · next hpos =>
        refine ⟨rfl, rfl, fun hinv hge => ?_⟩
        exfalso
        dsimp only at hge hpos
        omega
  · rw [Bool.not_eq_true] at hacc
    rw [dashIngest_not_accepted hacc, frameScores_not_accepted hacc]
    exact ⟨by simp, rfl, fun hinv hge => hinv (by simpa using hge)⟩

/-- Running the dashboard over a frame sequence accumulates all numeric
scores and keeps the published score equal to sum / count whenever the
count is positive. -/
theorem dashRun_inv (frames : List (Frame × ℚ)) :
    ∀ st : DashState,
      (dashRun frames st).count =
        st.count + (framesScores frames).length ∧
      (dashRun frames st).sentimentSum =
        (framesScores frames).foldl JsNum.add st.sentimentSum ∧
      ((1 ≤ st.count →
          st.satisfactionScore = st.sentimentSum.divNat st.count) →
        1 ≤ (dashRun frames st).count →
        (dashRun frames st).satisfactionScore =
          (dashRun frames st).sentimentSum.divNat
            (dashRun frames st).count) := by
  induction frames with
  | nil =>
      intro st
      exact ⟨by simp [dashRun, framesScores], rfl,
        fun hinv hge => hinv (by simpa [dashRun, framesScores] using hge)⟩
  | cons fr frames ih =>
      intro st
      have hstep := dashIngest_inv st fr.1 fr.2
      have hrest := ih (dashIngest st fr.1 fr.2).1
      have hrun : dashRun (fr :: frames) st =
          dashRun frames (dashIngest st fr.1 fr.2).1 := rfl
      have hjoin : framesScores (fr :: frames) =
          frameScores fr.1 ++ framesScores frames := by
        simp [framesScores]
      refine ⟨?_, ?_, ?_⟩
      · rw [hrun, hrest.1, hstep.1, hjoin]
        simp
        omega
      · rw [hrun, hrest.2.1, hstep.2.1, hjoin, List.foldl_append]
      · intro hinv hge
        rw [hrun]
        exact hrest.2.2 (hstep.2.2 hinv) (by rw [← hrun]; exact hge)

/-- C2: after ingesting any sequence of frames carrying in total N >= 1
numeric sentiment scores, the incrementally maintained satisfaction score
equals the batch mean of all scores, the fold of JS addition over them
divided by their count. -/
theorem dash_score_mean (frames : List (Frame × ℚ))
    (h : 1 ≤ (framesScores frames).length) :
    (dashRun frames DashState.init).count = (framesScores frames).length ∧
    (dashRun frames DashState.init).satisfactionScore =
      ((framesScores frames).foldl JsNum.add (.fin 0)).divNat
        (framesScores frames).length := by
  obtain ⟨hc, hs, hinv⟩ := dashRun_inv frames DashState.init
  have hc0 : (dashRun frames DashState.init).count =
      (framesScores frames).length := by
    rw [hc]
    simp [DashState.init]
  refine ⟨hc0, ?_⟩
  have hscore := hinv (fun hle => absurd hle (by decide)) (by omega)
  rw [hscore, hs, hc0]
  rfl

/-- C2 witness: two frames, the first carrying scores 1/2 and 1, the
second rejected, give count 2 and mean 3/4. -/
theorem dash_score_mean_witness :
    (dashRun
        [(.parsed ⟨some (.str "tweets"),
            .arr [⟨none, none, some (.num (.fin (1/2))), none, none⟩,
                  ⟨none, none, some (.num (.fin 1)), none, none⟩]⟩, 0),
         (.unparseable, 7)] DashState.init).count =
      (framesScores
        [(.parsed ⟨some (.str "tweets"),
            .arr [⟨none, none, some (.num (.fin (1/2))), none, none⟩,
                  ⟨none, none, some (.num (.fin 1)), none, none⟩]⟩, 0),
         (.unparseable, 7)]).length ∧
    (dashRun
        [(.parsed ⟨some (.str "tweets"),
            .arr [⟨none, none, some (.num (.fin (1/2))), none, none⟩,
                  ⟨none, none, some (.num (.fin 1)), none, none⟩]⟩, 0),
         (.unparseable, 7)] DashState.init).satisfactionScore =
      ((framesScores
        [(.parsed ⟨some (.str "tweets"),
            .arr [⟨none, none, some (.num (.fin (1/2))), none, none⟩,
                  ⟨none, none, some (.num (.fin 1)), none, none⟩]⟩, 0),
         (.unparseable, 7)]).foldl JsNum.add (.fin 0)).divNat
        (framesScores
          [(.parsed ⟨some (.str "tweets"),
              .arr [⟨none, none, some (.num (.fin (1/2))), none, none⟩,
                    ⟨none, none, some (.num (.fin 1)), none, none⟩]⟩, 0),
           (.unparseable, 7)]).length :=
  dash_score_mean _ (by decide)

/-- C7 counterexample: an accepted tweets message whose batch leaves the
total valid-record count at zero (here an empty data array on a fresh
dashboard) invokes the satisfaction-score update zero times, not exactly
once. -/
theorem dash_notify_zero :
    Frame.accepted (.parsed ⟨some (.str "tweets"), .arr []⟩) = true ∧
    (dashIngest DashState.init
        (.parsed ⟨some (.str "tweets"), .arr []⟩) 0).2 = 0 :=
  ⟨rfl, rfl⟩

/-- C7 amended: for every accepted tweets message the map calls
drawHeatmap exactly once, after the whole batch and independently of the
batch length; the dashboard calls the satisfaction-score update exactly
once when the running count is positive after the batch and zero times
when it is still zero, never once per element. -/
theorem notify_once_per_message (pts : List GeoPoint) (st : DashState)
    (data : List Tweet) (now nowMs : ℚ) :
    (usaMapIngest pts
        (.parsed ⟨some (.str "tweets"), .arr data⟩) now).2 = 1 ∧
    (1 ≤ (data.foldl (dashStep nowMs) st).count →
      (dashIngest st
        (.parsed ⟨some (.str "tweets"), .arr data⟩) nowMs).2 = 1) ∧
    ((data.foldl (dashStep nowMs) st).count = 0 →
      (dashIngest st
        (.parsed ⟨some (.str "tweets"), .arr data⟩) nowMs).2 = 0) := by
  refine ⟨rfl, fun h => ?_, fun h => ?_⟩
  · simp only [dashIngest]
    rw [if_pos (by omega)]
  · simp only [dashIngest]
    rw [if_neg (by omega)]

/-- C7 amended witness: a one-record batch with a numeric score on a
fresh dashboard updates the score exactly once. -/
theorem notify_once_per_message_witness :
    (dashIngest DashState.init
        (.parsed ⟨some (.str "tweets"),
          .arr [⟨none, none, some (.num (.fin 1)), none, none⟩]⟩) 0).2 = 1 :=
  (notify_once_per_message [] DashState.init
      [⟨none, none, some (.num (.fin 1)), none, none⟩] 0 0).2.1 (by decide)

/-- C8: ingesting the single valid record (lat 40.7, lon -74.0, score 0.5)
sets the cumulative dashboard aggregate to exactly 0.5 and puts one point
into the map buffer; running the prune step 61 seconds later empties the
buffer, while the dashboard aggregate, which no operation of the component
ever prunes, still reads 0.5. -/
theorem cumulative_survives_prune :
    (dashIngest DashState.init
        (.parsed ⟨some (.str "tweets"),
          .arr [⟨some (.num (.fin (407/10))), some (.num (.fin (-74))),
                some (.num (.fin (1/2))), none, none⟩]⟩)
        0).1.satisfactionScore = .fin (1/2) ∧
    (usaMapIngest []
        (.parsed ⟨some (.str "tweets"),
          .arr [⟨some (.num (.fin (407/10))), some (.num (.fin (-74))),
                some (.num (.fin (1/2))), none, none⟩]⟩) 1000).1 =
      [⟨.fin (407/10), .fin (-74), .fin (1/2), .fin 1000⟩] ∧
    prunePoints 1061
      [⟨.fin (407/10), .fin (-74), .fin (1/2), .fin 1000⟩] = [] := by
  refine ⟨?_, ?_, ?_⟩
  · norm_num [dashIngest, dashStep, numOrNull, DashState.init, JsNum.add,
      JsNum.divNat]
  · show prunePoints 1000 _ = _
    norm_num [prunePoints, mkPoint, numOrNull, List.filterMap, JsNum.geQ,
      List.filter]
  · norm_num [prunePoints, JsNum.geQ, List.filter]

theorem sliceLast_length_le (n : Nat) (l : List α) :
    (sliceLast n l).length ≤ n := by
  simp only [sliceLast, List.length_drop]
  omega

theorem sliceLast_eq_of_le {n : Nat} {l : List α} (h : l.length ≤ n) :
    sliceLast n l = l := by
  unfold sliceLast
  rw [Nat.sub_eq_zero_of_le h, List.drop_zero]

theorem sliceLast_append_one (n : Nat) (l : List α) (c : α) :
    sliceLast n (sliceLast n l ++ [c]) = sliceLast n (l ++ [c]) := by
  rcases le_or_lt l.length n with h | h
  · rw [sliceLast_eq_of_le h]
  · show (l.drop (l.length - n) ++ [c]).drop
        ((l.drop (l.length - n) ++ [c]).length - n) =
      (l ++ [c]).drop ((l ++ [c]).length - n)
    have h1 : (l.drop (l.length - n) ++ [c]).length - n = 1 := by
      rw [List.length_append, List.length_drop]
      simp only [List.length_singleton]
      omega
    have h2 : (l ++ [c]).length - n = (l.length - n + 1) := by
      rw [List.length_append]
      simp only [List.length_singleton]
      omega
    rw [h1, h2, List.drop_append_eq_append_drop,
      List.drop_append_eq_append_drop, List.drop_drop, List.length_drop]
    have h3 : l.length - n + 1 = 1 + (l.length - n) := by omega
    have h4 : 1 - (l.length - (l.length - n)) = l.length - n + 1 - l.length := by
      omega
    rw [h3, h4]
    have h5 : l.length - n + 1 - l.length = 1 + (l.length - n) - l.length := by
      omega
    rw [h5]

theorem foldl_sliceLast (n : Nat) (l2 : List α) :
    ∀ l : List α,
      l2.foldl (fun acc c => sliceLast n (acc ++ [c])) (sliceLast n l) =
        sliceLast n (l ++ l2) := by
  induction l2 with
  | nil => intro l; simp
  | cons c l2 ih =>
      intro l
      rw [List.foldl_cons, sliceLast_append_one, ih (l ++ [c]),
        List.append_assoc, List.singleton_append]

/-- C10: when the previous comment feed holds at most 50 entries, it still
holds at most 50 after any processed message, and on an accepted tweets
message the new feed is exactly the last 50 of the old feed followed by
the batch's comments in arrival order. -/
theorem comments_capped (st : DashState) (frame : Frame) (nowMs : ℚ)
    (h : st.liveComments.length ≤ 50) :
    (dashIngest st frame nowMs).1.liveComments.length ≤ 50 ∧
    ∀ data, frame = .parsed ⟨some (.str "tweets"), .arr data⟩ →
      (dashIngest st frame nowMs).1.liveComments =
        sliceLast 50
          (st.liveComments ++ data.filterMap (tweetComment nowMs)) := by
  have key : ∀ data,
      (dashIngest st
        (.parsed ⟨some (.str "tweets"), .arr data⟩) nowMs).1.liveComments =
        sliceLast 50
          (st.liveComments ++ data.filterMap (tweetComment nowMs)) := by
    intro data
    have hcm :
        (dashIngest st
          (.parsed ⟨some (.str "tweets"), .arr data⟩) nowMs).1.liveComments
          = (data.filterMap (tweetComment nowMs)).foldl
              (fun acc c => sliceLast 50 (acc ++ [c])) st.liveComments := by
      simp only [dashIngest, dashFold_spec nowMs data st]
      split
      · rfl
      · rfl
    rw [hcm, ← sliceLast_eq_of_le h, foldl_sliceLast,
      sliceLast_eq_of_le h]
  constructor
  · by_cases hacc : Frame.accepted frame = true
    · obtain ⟨data, rfl⟩ := accepted_shape hacc
      rw [key data]
      exact sliceLast_length_le 50 _
    · rw [Bool.not_eq_true] at hacc
      rw [dashIngest_not_accepted hacc]
      exact h
  · intro data heq
    subst heq
    exact key data

/-- C10 witness: a fresh dashboard processing a one-comment batch keeps
the feed within 50 entries. -/
theorem comments_capped_witness :
    (dashIngest DashState.init
        (.parsed ⟨some (.str "tweets"),
          .arr [⟨none, none, some (.num (.fin 1)), none,
                some (.str "hi")⟩]⟩) 0).1.liveComments.length ≤ 50 :=
  (comments_capped DashState.init
      (.parsed ⟨some (.str "tweets"),
        .arr [⟨none, none, some (.num (.fin 1)), none,
              some (.str "hi")⟩]⟩) 0 (by decide)).1

end TPulse
